import Mathlib

/-!
Verification development for the OpenAI Realtime protocol bridge
(`src/eittel/models/openai/connection.py`, `open_events.py`, `llm.py`).

The Python source is shallowly embedded: pure helpers become Lean functions,
the connection's mutable pending-function-call dict becomes an explicit
association list threaded through a step function, and fallible operations
return `Option`/`Except`.  Python `json.loads`/`json.dumps` are modelled on
the integer/string fragment of JSON (floats and `\u` escapes are omitted;
no claim below depends on them, and the same model function appears on both
sides of every statement that mentions JSON parsing).
-/

namespace Eittel

/-- JSON values (integer-number fragment), the model of Python's parsed JSON
objects as they appear in this code base. -/
inductive Json where
  | null
  | bool (b : Bool)
  | num (n : Int)
  | str (s : String)
  | arr (elems : List Json)
  | obj (fields : List (String × Json))

/-- The character `\x7b` (opening curly brace). -/
def lbrace : Char := Char.ofNat 123

/-- The character `\x7d` (closing curly brace). -/
def rbrace : Char := Char.ofNat 125

/-- Skip JSON whitespace, as `json.loads` does between tokens. -/
def skipWs : List Char → List Char
  | [] => []
  | c :: rest =>
    if c = ' ' ∨ c = '\n' ∨ c = '\t' ∨ c = '\r' then skipWs rest else c :: rest

/-- Translate a JSON escape character (the character after a backslash). -/
def unescapeChar (c : Char) : Option Char :=
  if c = '"' then some '"'
  else if c = '\\' then some '\\'
  else if c = '/' then some '/'
  else if c = 'n' then some '\n'
  else if c = 't' then some '\t'
  else if c = 'r' then some '\r'
  else if c = 'b' then some (Char.ofNat 8)
  else if c = 'f' then some (Char.ofNat 12)
  else none

/-- Parse the body of a JSON string literal (after the opening quote),
returning the string and the remaining input. -/
def parseStrChars : List Char → List Char → Option (String × List Char)
  | [], _ => none
  | '"' :: rest, acc => some (⟨acc.reverse⟩, rest)
  | '\\' :: [], _ => none
  | '\\' :: e :: rest2, acc =>
    match unescapeChar e with
    | some u => parseStrChars rest2 (u :: acc)
    | none => none
  | c :: rest, acc => parseStrChars rest (c :: acc)

/-- Take a maximal run of decimal digits. -/
def takeDigits : List Char → List Char × List Char
  | [] => ([], [])
  | c :: rest =>
    if c.isDigit then
      let (ds, r) := takeDigits rest
      (c :: ds, r)
    else ([], c :: rest)

/-- Decimal digits to a natural number. -/
def digitsToNat (ds : List Char) : Nat :=
  ds.foldl (fun acc c => acc * 10 + (c.toNat - 48)) 0

/-- Parse a JSON integer (optional minus sign followed by digits). -/
def parseNumber : List Char → Option (Json × List Char)
  | '-' :: rest =>
    match takeDigits rest with
    | ([], _) => none
    | (ds, r) => some (.num (-(digitsToNat ds : Int)), r)
  | cs =>
    match takeDigits cs with
    | ([], _) => none
    | (ds, r) => some (.num (digitsToNat ds), r)

mutual

/-- Fueled JSON value parser (model of `json.loads`' grammar). -/
def parseJsonVal : Nat → List Char → Option (Json × List Char)
  | 0, _ => none
  | fuel + 1, cs =>
    match skipWs cs with
    | [] => none
    | c :: rest =>
      if c = lbrace then
        match skipWs rest with
        | [] => none
        | c2 :: r2 =>
          if c2 = rbrace then some (.obj [], r2)
          else parseObjMembers fuel (c2 :: r2) []
      else
        match c :: rest with
        | 'n' :: 'u' :: 'l' :: 'l' :: r => some (.null, r)
        | 't' :: 'r' :: 'u' :: 'e' :: r => some (.bool true, r)
        | 'f' :: 'a' :: 'l' :: 's' :: 'e' :: r => some (.bool false, r)
        | '"' :: r =>
          match parseStrChars r [] with
          | some (s, r2) => some (.str s, r2)
          | none => none
        | '[' :: r =>
          match skipWs r with
          | ']' :: r2 => some (.arr [], r2)
          | cs2 => parseArrayElems fuel cs2 []
        | cs2 => parseNumber cs2

/-- Parse the elements of a non-empty JSON array. -/
def parseArrayElems : Nat → List Char → List Json → Option (Json × List Char)
  | 0, _, _ => none
  | fuel + 1, cs, acc =>
    match parseJsonVal fuel cs with
    | none => none
    | some (v, rest) =>
      match skipWs rest with
      | ',' :: r => parseArrayElems fuel r (v :: acc)
      | ']' :: r => some (.arr (v :: acc).reverse, r)
      | _ => none

/-- Parse the members of a non-empty JSON object. -/
def parseObjMembers : Nat → List Char → List (String × Json) →
    Option (Json × List Char)
  | 0, _, _ => none
  | fuel + 1, cs, acc =>
    match skipWs cs with
    | '"' :: rest =>
      match parseStrChars rest [] with
      | none => none
      | some (k, r1) =>
        match skipWs r1 with
        | ':' :: r2 =>
          match parseJsonVal fuel r2 with
          | none => none
          | some (v, r3) =>
            match skipWs r3 with
            | [] => none
            | c :: r4 =>
              if c = ',' then parseObjMembers fuel r4 ((k, v) :: acc)
              else if c = rbrace then some (.obj ((k, v) :: acc).reverse, r4)
              else none
        | _ => none
    | _ => none

end

/-- Model of Python `json.loads` restricted to the integer fragment:
`none` models the `json.JSONDecodeError` exception. -/
def jsonLoads (s : String) : Option Json :=
  match parseJsonVal (2 * s.data.length + 2) s.data with
  | some (v, rest) => if skipWs rest = [] then some v else none
  | none => none

/-- Escape one character for JSON string output. -/
def escapeChar (c : Char) : List Char :=
  if c = '"' then ['\\', '"']
  else if c = '\\' then ['\\', '\\']
  else if c = '\n' then ['\\', 'n']
  else if c = '\t' then ['\\', 't']
  else if c = '\r' then ['\\', 'r']
  else [c]

/-- Quote and escape a string for JSON output. -/
def quoteString (s : String) : String :=
  ⟨'"' :: (s.data.map escapeChar).flatten ++ ['"']⟩

mutual

/-- Model of Python `json.dumps` with its default separators. -/
def jsonDumps : Json → String
  | .null => "null"
  | .bool true => "true"
  | .bool false => "false"
  | .num n => toString n
  | .str s => quoteString s
  | .arr xs => "[" ++ dumpsElems xs ++ "]"
  | .obj fs => ⟨[lbrace]⟩ ++ dumpsFields fs ++ ⟨[rbrace]⟩

/-- Serialize array elements, separated by `", "`. -/
def dumpsElems : List Json → String
  | [] => ""
  | [x] => jsonDumps x
  | x :: y :: rest => jsonDumps x ++ ", " ++ dumpsElems (y :: rest)

/-- Serialize object members, separated by `", "`, keys and values joined
by `": "`. -/
def dumpsFields : List (String × Json) → String
  | [] => ""
  | [(k, v)] => quoteString k ++ ": " ++ jsonDumps v
  | (k, v) :: f :: rest =>
    quoteString k ++ ": " ++ jsonDumps v ++ ", " ++ dumpsFields (f :: rest)

end

/-! ### Association lists: the model of Python `dict`

A Python `dict` with string keys becomes a `List (String × α)` whose keys are
distinct for every state a running program can reach; insertion replaces the
first matching entry or appends, exactly as `d[k] = v`, and `pop` removes the
first matching entry. -/

/-- `d.get(k)` / `d[k]` lookup: first entry with the given key. -/
def alistGet {α : Type} : List (String × α) → String → Option α
  | [], _ => none
  | (k', v) :: rest, k => if k' = k then some v else alistGet rest k

/-- `d[k] = v`: replace the first entry with key `k`, or append a new one. -/
def alistSet {α : Type} : List (String × α) → String → α → List (String × α)
  | [], k, v => [(k, v)]
  | (k', v') :: rest, k, v =>
    if k' = k then (k, v) :: rest else (k', v') :: alistSet rest k v

/-- In-place mutation of the value stored at `k` (`d[k].field op= x`):
applies `f` to the first entry with key `k`, if any. -/
def alistUpdate {α : Type} (f : α → α) :
    List (String × α) → String → List (String × α)
  | [], _ => []
  | (k', v) :: rest, k =>
    if k' = k then (k', f v) :: rest else (k', v) :: alistUpdate f rest k

/-- `d.pop(k, None)`'s effect on the dict: remove the first entry with key
`k`, if any. -/
def alistErase {α : Type} : List (String × α) → String → List (String × α)
  | [], _ => []
  | (k', v) :: rest, k =>
    if k' = k then rest else (k', v) :: alistErase rest k

/-! ### Data model (google.genai types, ADK LlmResponse) -/

/-- `types.FunctionCall`: a tool invocation emitted by the model. -/
structure FunctionCall where
  name : String := ""
  args : Json := Json.obj []
  id : Option String := none

/-- `types.FunctionResponse`: a tool result supplied by the caller. -/
structure FunctionResponse where
  id : Option String := none
  response : Json := Json.null

/-- `types.Blob`: inline binary data (audio bytes as naturals < 256). -/
structure Blob where
  mime_type : String := ""
  data : List Nat := []

/-- `types.Part`: at most one of text / function_call / function_response /
inline_data is populated, but the type allows any combination, as the
Python class does. -/
structure Part where
  text : Option String := none
  function_call : Option FunctionCall := none
  function_response : Option FunctionResponse := none
  inline_data : Option Blob := none

/-- `types.Content`: a role plus parts; `parts` is optional in the Python
model, so absent (`none`) and empty (`some []`) are distinct inputs. -/
structure Content where
  role : String := ""
  parts : Option (List Part) := none

/-- ADK `LlmResponse`, the bridge's normalized response record. -/
structure LlmResp where
  content : Option Content := none
  isPartial : Bool := false
  turn_complete : Bool := false
  interrupted : Bool := false
  error_code : Option String := none
  error_message : Option String := none
  custom_metadata : Option Json := none

/-! ### Inbound wire events

Handlers read the raw decoded dict (`raw`), so the embedding models the raw
frame directly, with each field the handlers touch as an optional value.
String-valued fields are typed `Option String`: absent models a missing key,
and Python's falsy `''` is handled by `strOrNone` below. -/

/-- The `item` payload of `response.output_item.added/done`. -/
structure RawItem where
  type : Option String := none
  id : Option String := none
  call_id : Option String := none
  name : Option String := none
  arguments : Option String := none

/-- The `error` payload of an `error` event. -/
structure ErrInfo where
  code : Option String := none
  message : Option String := none

/-- The `response` payload of `response.done`. -/
structure RespInfo where
  usage : Option Json := none

/-- An inbound frame after JSON decoding. -/
structure RawEvent where
  type : String
  delta : Option String := none
  text : Option String := none
  transcript : Option String := none
  id : Option String := none
  item_id : Option String := none
  arguments : Option String := none
  item : Option RawItem := none
  response : Option RespInfo := none
  error : Option ErrInfo := none

/-- Python truthiness on an optional string: `None` and `''` are falsy. -/
def strOrNone : Option String → Option String
  | some s => if s = "" then none else some s
  | none => none

/-- Python `a or b` on optional strings: `b` verbatim when `a` is falsy. -/
def pyOrOpt (a b : Option String) : Option String :=
  match strOrNone a with
  | some s => some s
  | none => b

/-- Python `a or b or dflt` producing a plain string. -/
def firstStr (a b : Option String) (dflt : String) : String :=
  match strOrNone a with
  | some s => s
  | none =>
    match strOrNone b with
    | some s => s
    | none => dflt

/-! ### Connection state and inbound event handlers
(`OpenAIRealtimeConnection` in `connection.py`) -/

/-- One pending function call: `{'name': ..., 'args_buffer': ...}`. -/
structure PendingCall where
  name : String
  args_buffer : String
deriving DecidableEq

/-- The connection state the inbound handlers touch:
`self._pending_func_calls`. -/
structure ConnState where
  pending : List (String × PendingCall)
deriving DecidableEq

/-- A freshly constructed connection: empty pending map. -/
def initState : ConnState := { pending := [] }

/-- Python exceptions that can escape a handler into `receive()`'s caller. -/
inductive PyError where
  | attributeErr (name : String)
  | typeErr (msg : String)
deriving DecidableEq

/-- `types.Content(role=..., parts=[types.Part.from_text(text=...)])`. -/
def textContent (role t : String) : Content :=
  { role := role, parts := some [{ text := some t }] }

/-- A text response, partial or final, as the handlers build them. -/
def textResp (role t : String) (p : Bool) : LlmResp :=
  { content := some (textContent role t), isPartial := p }

/-- A model-role response holding a single function-call part. -/
def funcCallResp (fc : FunctionCall) : LlmResp :=
  { content := some { role := "model", parts := some [{ function_call := some fc }] } }

/-- `_handle_output_item_added`: on a `function_call` output item, open a
pending entry keyed by `item.get('id') or item.get('call_id') or ''` holding
the name and the initial arguments buffer (`item.get('arguments') or '{}'`);
emission is deferred.  (The source also pre-parses the arguments only to
re-serialize them when they are not a string; with string-typed `arguments`
the buffer is always the string itself.) -/
def handleOutputItemAdded (st : ConnState) (e : RawEvent) :
    ConnState × List LlmResp :=
  let item := e.item.getD {}
  if item.type ≠ some "function_call" then (st, [])
  else
    let name := (strOrNone item.name).getD ""
    let args_str := (strOrNone item.arguments).getD ⟨[lbrace, rbrace]⟩
    let item_id := firstStr item.id item.call_id ""
    ({ pending := alistSet st.pending item_id
        { name := name, args_buffer := args_str } }, [])

/-- `pending['args_buffer'] += delta`. -/
def appendBuf (d : String) (pc : PendingCall) : PendingCall :=
  { pc with args_buffer := pc.args_buffer ++ d }

/-- `pending['args_buffer'] = args_str`. -/
def setBuf (a : String) (pc : PendingCall) : PendingCall :=
  { pc with args_buffer := a }

/-- `_handle_function_args_delta`: append the delta to the pending buffer;
no-op when the item id has no pending entry. -/
def handleFunctionArgsDelta (st : ConnState) (e : RawEvent) :
    ConnState × List LlmResp :=
  let delta := e.delta.getD ""
  let item_id := firstStr e.item_id e.id ""
  if (alistGet st.pending item_id).isSome then
    ({ pending := alistUpdate (appendBuf delta) st.pending item_id }, [])
  else (st, [])

/-- `_handle_function_args_done`: replace the pending buffer with the
event's full `arguments` string; no-op when the item id has no pending
entry.  (`isinstance(args_str, str)` always holds for a string field.) -/
def handleFunctionArgsDone (st : ConnState) (e : RawEvent) :
    ConnState × List LlmResp :=
  let args_str := e.arguments.getD ""
  let item_id := firstStr e.item_id e.id ""
  if (alistGet st.pending item_id).isSome then
    ({ pending := alistUpdate (setBuf args_str) st.pending item_id }, [])
  else (st, [])

/-- `_handle_output_item_done`: pop the pending entry, parse its buffer
(`'{}'` when the buffer is empty; an empty dict on parse failure) and emit
exactly one function-call response tagged
`item.get('call_id') or item.get('id')`; silently drop a completed call
with no pending entry. -/
def handleOutputItemDone (st : ConnState) (e : RawEvent) :
    ConnState × List LlmResp :=
  let item := e.item.getD {}
  if item.type ≠ some "function_call" then (st, [])
  else
    let item_id := firstStr item.id item.call_id ""
    match alistGet st.pending item_id with
    | none => (st, [])
    | some pending =>
      let args := (jsonLoads (if pending.args_buffer = ""
          then ⟨[lbrace, rbrace]⟩ else pending.args_buffer)).getD (Json.obj [])
      let fc : FunctionCall :=
        { name := pending.name, args := args,
          id := pyOrOpt item.call_id item.id }
      ({ pending := alistErase st.pending item_id }, [funcCallResp fc])

/-- `_handle_output_text_delta`: a non-empty delta becomes one partial
model-role text response; an empty delta yields nothing. -/
def handleOutputTextDelta (e : RawEvent) : List LlmResp :=
  let delta := e.delta.getD ""
  if delta = "" then [] else [textResp "model" delta true]

/-- `_handle_output_text_done`: a non-empty text becomes one final
model-role text response; with empty text the Python function falls off the
end and returns `None` (not a list). -/
def handleOutputTextDone (e : RawEvent) : Option (List LlmResp) :=
  let text := e.text.getD ""
  if text = "" then none else some [textResp "model" text false]

/-- `_handle_input_transcript_delta`. -/
def handleInputTranscriptDelta (e : RawEvent) : List LlmResp :=
  let delta := e.delta.getD ""
  if delta = "" then [] else [textResp "user" delta true]

/-- `_handle_input_transcript_completed`. -/
def handleInputTranscriptCompleted (e : RawEvent) : List LlmResp :=
  let transcript := e.transcript.getD ""
  if transcript = "" then [] else [textResp "user" transcript false]

/-- `_handle_output_transcript_delta`. -/
def handleOutputTranscriptDelta (e : RawEvent) : List LlmResp :=
  let delta := e.delta.getD ""
  if delta = "" then [] else [textResp "model" delta true]

/-- `_handle_output_transcript_done`. -/
def handleOutputTranscriptDone (e : RawEvent) : List LlmResp :=
  let transcript := e.transcript.getD ""
  if transcript = "" then [] else [textResp "model" transcript false]

/-- A server-sentinel partial response (SPEECH_START, TTS_END, ...). -/
def sentinelResp (s : String) : LlmResp := textResp "SERVER" s true

/-- `_handle_conversation_truncated`. -/
def handleConversationTruncated : List LlmResp :=
  [{ interrupted := true, isPartial := true }]

/-- `_handle_response_done`: turn-complete plus any usage metadata. -/
def handleResponseDone (e : RawEvent) : List LlmResp :=
  [{ turn_complete := true, custom_metadata := (e.response.getD {}).usage }]

/-- `_handle_error`: `str(err.get('code') or 'OPENAI_ERROR')` and message. -/
def handleError (e : RawEvent) : List LlmResp :=
  let err := e.error.getD {}
  [{ error_code := some ((strOrNone err.code).getD "OPENAI_ERROR"),
     error_message := err.message }]

/-- `_handle_speech_started`. -/
def handleSpeechStarted : List LlmResp := [sentinelResp "SPEECH_START"]

/-- `_handle_speech_stopped`. -/
def handleSpeechStopped : List LlmResp := [sentinelResp "SPEECH_END"]

/-- `_handle_timeout_triggered`. -/
def handleTimeoutTriggered : List LlmResp := [sentinelResp "TIMEOUT"]

/-- `_handle_output_audio_started`. -/
def handleOutputAudioStarted : List LlmResp := [sentinelResp "TTS_START"]

/-- `_handle_output_audio_stopped`. -/
def handleOutputAudioStopped : List LlmResp := [sentinelResp "TTS_END"]

/-! ### Base64 (model of Python `base64.b64encode` / `b64decode`) -/

/-- The standard base64 alphabet. -/
def base64Alphabet : List Char :=
  "ABCDEFGHIJKLMNOPQRSTUVWXYZabcdefghijklmnopqrstuvwxyz0123456789+/".data

/-- The alphabet character for a sextet. -/
def b64Char (n : Nat) : Char := base64Alphabet.getD n 'A'

/-- The sextet for an alphabet character. -/
def b64Index (c : Char) : Option Nat := base64Alphabet.findIdx? (· = c)

/-- RFC 4648 base64 encoding of a byte list (`base64.b64encode(...).decode()`). -/
def base64Encode : List Nat → String
  | [] => ""
  | [a] => ⟨[b64Char (a / 4), b64Char (a % 4 * 16), '=', '=']⟩
  | [a, b] => ⟨[b64Char (a / 4), b64Char (a % 4 * 16 + b / 16),
               b64Char (b % 16 * 4), '=']⟩
  | a :: b :: c :: rest =>
    (⟨[b64Char (a / 4), b64Char (a % 4 * 16 + b / 16),
      b64Char (b % 16 * 4 + c / 64), b64Char (c % 64)]⟩ : String)
      ++ base64Encode rest

/-- Decode four-character base64 groups into bytes; `none` models
`binascii.Error`. -/
def b64DecodeGroups : List Char → Option (List Nat)
  | [] => some []
  | a :: b :: c :: d :: rest =>
    match b64Index a, b64Index b with
    | some ia, some ib =>
      if c = '=' then
        if d = '=' ∧ rest = [] then some [ia * 4 + ib / 16] else none
      else
        match b64Index c with
        | some ic =>
          if d = '=' then
            if rest = [] then some [ia * 4 + ib / 16, ib % 16 * 16 + ic / 4]
            else none
          else
            match b64Index d with
            | some idx =>
              match b64DecodeGroups rest with
              | some tail =>
                some ((ia * 4 + ib / 16) :: (ib % 16 * 16 + ic / 4) ::
                      (ic % 4 * 64 + idx) :: tail)
              | none => none
            | none => none
        | none => none
    | _, _ => none
  | _ => none

/-- Model of `base64.b64decode` (default `validate=False` discards
characters outside the alphabet before decoding). -/
def base64Decode (s : String) : Option (List Nat) :=
  b64DecodeGroups (s.data.filter fun c => (b64Index c).isSome ∨ c = '=')

/-- `_handle_output_audio_delta`: base64-decode the delta into partial
binary content; an empty or malformed payload is logged and dropped. -/
def handleOutputAudioDelta (e : RawEvent) : List LlmResp :=
  let delta := e.delta.getD ""
  if delta = "" then []
  else
    match base64Decode delta with
    | none => []
    | some bytes =>
      let blob : Blob := { mime_type := "audio/pcm", data := bytes }
      [{ content := some { role := "model",
                           parts := some [{ inline_data := some blob }] },
         isPartial := true }]

/-! ### The receive-side step
(`receive()` + `OpenAIEventRouter.dispatch` + `_register_event_handlers`)

`dispatchEvent` models the processing of one JSON-decoded inbound frame:
the router looks the frame's `type` up among the handlers registered in
`_register_event_handlers` and `receive()` iterates the handler's return
value.  Two registered types are faulty in the source: the handler
registered for `response.output_audio.done` calls
`self._handle_output_audio_done`, a method that does not exist (an
`AttributeError` escapes to the consumer of `receive()`), and
`_handle_output_text_done` returns `None` for empty text, so `receive()`'s
`for resp in ...` raises `TypeError`.  Unregistered types yield `[]`. -/
def dispatchEvent (st : ConnState) (e : RawEvent) :
    Except PyError (ConnState × List LlmResp) :=
  if e.type = "conversation.item.truncated" then
    .ok (st, handleConversationTruncated)
  else if e.type = "response.done" then
    .ok (st, handleResponseDone e)
  else if e.type = "error" then
    .ok (st, handleError e)
  else if e.type = "input_audio_buffer.speech_started" then
    .ok (st, handleSpeechStarted)
  else if e.type = "input_audio_buffer.speech_stopped" then
    .ok (st, handleSpeechStopped)
  else if e.type = "input_audio_buffer.timeout_triggered" then
    .ok (st, handleTimeoutTriggered)
  else if e.type = "conversation.item.input_audio_transcription.delta" then
    .ok (st, handleInputTranscriptDelta e)
  else if e.type = "conversation.item.input_audio_transcription.completed" then
    .ok (st, handleInputTranscriptCompleted e)
  else if e.type = "response.output_item.added" then
    .ok (handleOutputItemAdded st e)
  else if e.type = "response.function_call_arguments.delta" then
    .ok (handleFunctionArgsDelta st e)
  else if e.type = "response.function_call_arguments.done" then
    .ok (handleFunctionArgsDone st e)
  else if e.type = "response.output_item.done" then
    .ok (handleOutputItemDone st e)
  else if e.type = "response.output_text.delta" then
    .ok (st, handleOutputTextDelta e)
  else if e.type = "response.output_text.done" then
    match handleOutputTextDone e with
    | some rs => .ok (st, rs)
    | none => .error (.typeErr "NoneType object is not iterable")
  else if e.type = "output_audio_buffer.started" then
    .ok (st, handleOutputAudioStarted)
  else if e.type = "response.audio.delta" then
    .ok (st, handleOutputAudioDelta e)
  else if e.type = "response.output_audio.done" then
    .error (.attributeErr "_handle_output_audio_done")
  else if e.type = "output_audio_buffer.stopped" then
    .ok (st, handleOutputAudioStopped)
  else if e.type = "response.audio_transcript.delta" then
    .ok (st, handleOutputTranscriptDelta e)
  else if e.type = "response.audio_transcript.done" then
    .ok (st, handleOutputTranscriptDone e)
  else .ok (st, [])

/-- Run a list of inbound frames from a state, collecting every yielded
response in order; an escaping exception aborts the loop. -/
def runEvents : ConnState → List RawEvent → ConnState × List LlmResp
  | st, [] => (st, [])
  | st, e :: es =>
    match dispatchEvent st e with
    | .ok (st', rs) =>
      let p := runEvents st' es
      (p.1, rs ++ p.2)
    | .error _ => (st, [])

/-- The state-only step of one frame (the state is kept on an exception). -/
def stepState (st : ConnState) (e : RawEvent) : ConnState :=
  match dispatchEvent st e with
  | .ok (st', _) => st'
  | .error _ => st

/-- The connection state reached from construction after a frame list. -/
def runConn (es : List RawEvent) : ConnState := es.foldl stepState initState

/-- Event constructors used in the statements below. -/
def mkOutputItemAdded (it : RawItem) : RawEvent :=
  { type := "response.output_item.added", item := some it }

/-- A `response.function_call_arguments.delta` frame. -/
def mkArgsDelta (i d : String) : RawEvent :=
  { type := "response.function_call_arguments.delta",
    delta := some d, item_id := some i }

/-- A `response.function_call_arguments.done` frame. -/
def mkArgsDone (i a : String) : RawEvent :=
  { type := "response.function_call_arguments.done",
    arguments := some a, item_id := some i }

/-- A `response.output_item.done` frame. -/
def mkOutputItemDone (it : RawItem) : RawEvent :=
  { type := "response.output_item.done", item := some it }

/-- A `response.output_text.delta` frame. -/
def mkTextDelta (d : String) : RawEvent :=
  { type := "response.output_text.delta", delta := some d }

/-- A `response.output_text.done` frame. -/
def mkTextDone (t : String) : RawEvent :=
  { type := "response.output_text.done", text := some t }

/-! ### Outbound frames and the send operations -/

/-- An entry of a message item's `content` array. -/
inductive ContentEntry where
  | input_text (text : String)
  | text (text : String)
deriving DecidableEq

/-- Outbound wire frames the send operations produce. -/
inductive Frame where
  | conversationItemCreateMessage (role : String) (content : List ContentEntry)
  | conversationItemCreateFunctionCallOutput (call_id : Option String)
      (output : String)
  | responseCreate
  | inputAudioBufferAppend (audio : String)
  | inputAudioBufferCommit
  | inputAudioBufferClear
deriving DecidableEq

/-- The `input_text` entries for the truthy text parts of a part list
(`[{'type': 'input_text', 'text': p.text} for p in parts if p.text]`). -/
def inputTextEntries (ps : List Part) : List ContentEntry :=
  ps.filterMap fun p =>
    match p.text with
    | some t => if t = "" then none else some (.input_text t)
    | none => none

/-- The model-branch loop body of `send_history` for one part: `continue`
on a function call (no frame), one assistant text message for a truthy
text, nothing otherwise. -/
def modelPartFrame (p : Part) : Option Frame :=
  if p.function_call.isSome then none
  else
    match p.text with
    | some t =>
      if t = "" then none
      else some (.conversationItemCreateMessage "assistant" [.text t])
    | none => none

/-- The loop body of `send_history` for one content item.  The
function-response check comes first (on the first part only); then
model-role items replay text parts as assistant messages, skipping
function calls; then user-role items send one combined user message. -/
def sendHistoryItem (c : Content) : List Frame :=
  match c.parts.getD [] with
  | [] => []
  | p0 :: ps =>
    if p0.function_response.isSome then
      let texts := (p0 :: ps).filterMap fun p =>
        p.function_response.map fun fr =>
          ContentEntry.input_text (jsonDumps fr.response)
      if texts = [] then []
      else [.conversationItemCreateMessage "user" texts]
    else if c.role = "model" then
      (p0 :: ps).filterMap modelPartFrame
    else if c.role = "user" then
      let texts := inputTextEntries (p0 :: ps)
      if texts = [] then []
      else [.conversationItemCreateMessage "user" texts]
    else []

/-- `send_history`: replay each history item in order; no `response.create`
is ever sent. -/
def send_history : List Content → List Frame
  | [] => []
  | c :: rest => sendHistoryItem c ++ send_history rest

/-- Local failures of the send operations (`assert` / `raise ValueError`). -/
inductive SendError where
  | assertionError
  | valueError (msg : String)
deriving DecidableEq

/-- `send_content`: requires at least one part; a function-response-first
content emits one `function_call_output` frame per function-response part
then `response.create`; otherwise the truthy text parts form one user
message followed by `response.create`, or nothing at all. -/
def send_content (c : Content) : Except SendError (List Frame) :=
  match c.parts.getD [] with
  | [] => .error .assertionError
  | p0 :: ps =>
    if p0.function_response.isSome then
      .ok (((p0 :: ps).filterMap fun p =>
          p.function_response.map fun fr =>
            Frame.conversationItemCreateFunctionCallOutput fr.id
              (jsonDumps fr.response)) ++ [.responseCreate])
    else
      let texts := inputTextEntries (p0 :: ps)
      if texts = [] then .ok []
      else .ok [.conversationItemCreateMessage "user" texts, .responseCreate]

/-- The shapes `send_realtime` distinguishes by `isinstance`: an audio blob,
the activity markers, or anything else (summarized by its type name). -/
inductive RealtimeInput where
  | blob (data : List Nat)
  | activityStart
  | activityEnd
  | other (typeName : String)

/-- `send_realtime`: append base64 audio, commit+start on activity start,
clear on activity end, `ValueError` otherwise (before any frame is sent). -/
def send_realtime : RealtimeInput → Except SendError (List Frame)
  | .blob bytes => .ok [.inputAudioBufferAppend (base64Encode bytes)]
  | .activityStart => .ok [.inputAudioBufferCommit, .responseCreate]
  | .activityEnd => .ok [.inputAudioBufferClear]
  | .other t =>
    .error (.valueError ("Unsupported realtime input type: " ++ t))

/-! ### Session-configuration deep merge (`_deep_merge` in `llm.py`) -/

mutual

/-- Structural size of a JSON value (drives the deep-merge fuel). -/
def jsonSize : Json → Nat
  | .null => 1
  | .bool _ => 1
  | .num _ => 1
  | .str _ => 1
  | .arr xs => 1 + jsonElemsSize xs
  | .obj fs => 1 + jsonFieldsSize fs

/-- Structural size of a JSON array's elements. -/
def jsonElemsSize : List Json → Nat
  | [] => 1
  | x :: rest => 1 + jsonSize x + jsonElemsSize rest

/-- Structural size of a JSON object's members. -/
def jsonFieldsSize : List (String × Json) → Nat
  | [] => 1
  | (_, v) :: rest => 1 + jsonSize v + jsonFieldsSize rest

end

/-- Fueled body of `_deep_merge(base, extra)`: iterate `extra` in order;
skip `None` values; recurse when both sides hold dicts; otherwise assign.
Fuel only bounds the recursion depth; `jsonFieldsSize extra` strictly
exceeds the number of steps every path can take, so `deep_merge` below
never hits 0. -/
def deep_merge_fuel : Nat → List (String × Json) → List (String × Json) →
    List (String × Json)
  | 0, base, _ => base
  | fuel + 1, base, extra =>
    match extra with
    | [] => base
    | (k, v) :: rest =>
      let base' :=
        match v with
        | .null => base
        | .obj sub =>
          match alistGet base k with
          | some (.obj bsub) =>
            alistSet base k (.obj (deep_merge_fuel fuel bsub sub))
          | _ => alistSet base k (.obj sub)
        | _ => alistSet base k v
      deep_merge_fuel fuel base' rest

/-- `_deep_merge(base, extra)` from `llm.py`. -/
def deep_merge (base extra : List (String × Json)) : List (String × Json) :=
  deep_merge_fuel (jsonFieldsSize extra) base extra

/-- Concatenation of a list of strings (buffer after a run of deltas). -/
def strConcat : List String → String
  | [] => ""
  | s :: rest => s ++ strConcat rest

/-- The dict representation invariant: keys are pairwise distinct.  Every
Python dict satisfies it; the theorems show every reachable connection
state does. -/
def pendingWF (st : ConnState) : Prop :=
  (st.pending.map Prod.fst).Nodup

instance (st : ConnState) : Decidable (pendingWF st) := by
  unfold pendingWF; infer_instance

/-- A `function_call` item as it appears on an added frame: id, name and
initial arguments. -/
def addedItem (i n s0 : String) : RawItem :=
  { type := some "function_call", id := some i, name := some n, arguments := some s0 }

/-- A `function_call` item as it appears on a done frame: id and call id. -/
def doneItem (i : String) (cid : Option String) : RawItem :=
  { type := some "function_call", id := some i, call_id := cid }

/-- The buffer the added handler opens: `item.get('arguments') or '{}'`. -/
def initialBuf (s0 : String) : String :=
  if s0 = "" then (⟨[lbrace, rbrace]⟩ : String) else s0

/-- The inbound sequence of claim C1: an output-item-added frame for a
function call with id `i`, name `n` and initial arguments `s0`; then one
argument-delta frame per element of `deltas`; then, optionally, one
argument-done frame carrying `full`; then the output-item-done frame whose
item carries id `i` and call id `cid`. -/
def funcCallEvents (i n s0 : String) (deltas : List String)
    (full : Option String) (cid : Option String) : List RawEvent :=
  mkOutputItemAdded (addedItem i n s0) ::
    (deltas.map (mkArgsDelta i) ++
      ((full.map (mkArgsDone i)).toList ++
        [mkOutputItemDone (doneItem i cid)]))

/-! ## Lemmas: association lists -/

theorem alistGet_alistSet_self {α : Type} (m : List (String × α)) (k : String)
    (v : α) : alistGet (alistSet m k v) k = some v := by
  induction m with
  | nil => simp [alistGet, alistSet]
  | cons p rest ih =>
    obtain ⟨k', v'⟩ := p
    by_cases h : k' = k <;> simp [alistGet, alistSet, h, ih]

theorem alistGet_alistSet_ne {α : Type} (m : List (String × α))
    (k k' : String) (v : α) (h : k ≠ k') :
    alistGet (alistSet m k' v) k = alistGet m k := by
  have hks : ¬ k' = k := fun hh => h hh.symm
  induction m with
  | nil => simp [alistGet, alistSet, hks]
  | cons p rest ih =>
    obtain ⟨k0, v0⟩ := p
    by_cases h0 : k0 = k' <;> simp [alistGet, alistSet, h0, ih, hks]

theorem mem_keys_alistSet {α : Type} (m : List (String × α)) (k x : String)
    (v : α) :
    x ∈ (alistSet m k v).map Prod.fst ↔ x ∈ m.map Prod.fst ∨ x = k := by
  induction m with
  | nil => simp [alistSet]
  | cons p rest ih =>
    obtain ⟨k0, v0⟩ := p
    by_cases h0 : k0 = k <;> simp [alistSet, h0, ih] <;> tauto

theorem nodup_keys_alistSet {α : Type} (m : List (String × α)) (k : String)
    (v : α) (h : (m.map Prod.fst).Nodup) :
    ((alistSet m k v).map Prod.fst).Nodup := by
  induction m with
  | nil => simp [alistSet]
  | cons p rest ih =>
    obtain ⟨k0, v0⟩ := p
    simp only [List.map_cons, List.nodup_cons] at h
    by_cases h0 : k0 = k
    · subst h0; simpa [alistSet] using h
    · simp only [alistSet, h0, if_false, List.map_cons, List.nodup_cons]
      refine ⟨fun hx => ?_, ih h.2⟩
      rcases (mem_keys_alistSet rest k k0 v).mp hx with hmem | hk
      · exact h.1 hmem
      · exact h0 hk

theorem keys_alistUpdate {α : Type} (f : α → α) (m : List (String × α))
    (k : String) : (alistUpdate f m k).map Prod.fst = m.map Prod.fst := by
  induction m with
  | nil => simp [alistUpdate]
  | cons p rest ih =>
    obtain ⟨k0, v0⟩ := p
    by_cases h0 : k0 = k <;> simp [alistUpdate, h0, ih]

theorem alistGet_alistUpdate_self {α : Type} (f : α → α)
    (m : List (String × α)) (k : String) :
    alistGet (alistUpdate f m k) k = (alistGet m k).map f := by
  induction m with
  | nil => simp [alistGet, alistUpdate]
  | cons p rest ih =>
    obtain ⟨k0, v0⟩ := p
    by_cases h0 : k0 = k <;> simp [alistGet, alistUpdate, h0, ih]

theorem alistUpdate_alistUpdate {α : Type} (f g : α → α)
    (m : List (String × α)) (k : String) :
    alistUpdate f (alistUpdate g m k) k = alistUpdate (fun v => f (g v)) m k := by
  induction m with
  | nil => simp [alistUpdate]
  | cons p rest ih =>
    obtain ⟨k0, v0⟩ := p
    by_cases h0 : k0 = k <;> simp [alistUpdate, h0, ih]

theorem alistUpdate_congr {α : Type} {f g : α → α} (h : ∀ v, f v = g v)
    (m : List (String × α)) (k : String) :
    alistUpdate f m k = alistUpdate g m k := by
  induction m with
  | nil => simp [alistUpdate]
  | cons p rest ih =>
    obtain ⟨k0, v0⟩ := p
    by_cases h0 : k0 = k <;> simp [alistUpdate, h0, ih, h]

theorem alistUpdate_id {α : Type} (m : List (String × α)) (k : String) :
    alistUpdate (fun v => v) m k = m := by
  induction m with
  | nil => simp [alistUpdate]
  | cons p rest ih =>
    obtain ⟨k0, v0⟩ := p
    by_cases h0 : k0 = k <;> simp [alistUpdate, h0, ih]

theorem keys_alistErase_sublist {α : Type} (m : List (String × α))
    (k : String) :
    ((alistErase m k).map Prod.fst).Sublist (m.map Prod.fst) := by
  induction m with
  | nil => simp [alistErase]
  | cons p rest ih =>
    obtain ⟨k0, v0⟩ := p
    by_cases h0 : k0 = k
    · simp only [alistErase, if_pos h0]
      exact List.sublist_cons_self k0 _
    · simpa [alistErase, h0] using ih.cons₂ k0

theorem alistGet_eq_none_of_not_mem {α : Type} (m : List (String × α))
    (k : String) (h : k ∉ m.map Prod.fst) : alistGet m k = none := by
  induction m with
  | nil => simp [alistGet]
  | cons p rest ih =>
    obtain ⟨k0, v0⟩ := p
    simp only [List.map_cons, List.mem_cons] at h
    push_neg at h
    have hks : ¬ k0 = k := fun hh => h.1 hh.symm
    simp [alistGet, hks, ih h.2]

theorem alistGet_alistErase_self {α : Type} (m : List (String × α))
    (k : String) (h : (m.map Prod.fst).Nodup) :
    alistGet (alistErase m k) k = none := by
  induction m with
  | nil => simp [alistGet, alistErase]
  | cons p rest ih =>
    obtain ⟨k0, v0⟩ := p
    simp only [List.map_cons, List.nodup_cons] at h
    by_cases h0 : k0 = k
    · subst h0
      simp only [alistErase, if_pos rfl]
      exact alistGet_eq_none_of_not_mem rest k0 h.1
    · simp [alistErase, alistGet, h0, ih h.2]

/-! ## Lemmas: Python string helpers -/

theorem getD_strOrNone_empty (s : String) : (strOrNone (some s)).getD "" = s := by
  by_cases h : s = "" <;> simp [strOrNone, h]

theorem strOrNone_getD (s d : String) :
    (strOrNone (some s)).getD d = if s = "" then d else s := by
  by_cases h : s = "" <;> simp [strOrNone, h]

theorem firstStr_some_none (i : String) : firstStr (some i) none "" = i := by
  by_cases h : i = "" <;> simp [firstStr, strOrNone, h]

theorem firstStr_some_ne (i : String) (b : Option String) (hi : i ≠ "") :
    firstStr (some i) b "" = i := by
  simp [firstStr, strOrNone, hi]

/-- The arguments buffer the done handler feeds to the JSON parser agrees
with parsing the raw buffer and defaulting to the empty object: an empty
buffer is first replaced by `"{}"`, which parses to the empty object, while
parsing the empty string fails and defaults to the empty object too. -/
theorem jsonLoads_braceDefault (b : String) :
    (jsonLoads (if b = "" then (⟨[lbrace, rbrace]⟩ : String) else b)).getD
        (Json.obj []) =
      (jsonLoads b).getD (Json.obj []) := by
  by_cases h : b = ""
  · subst h
    rfl
  · simp [h]

/-! ## Lemmas: dispatch bridges (the router's type lookup, computed) -/

theorem dispatch_outputItemAdded (st : ConnState) (it : RawItem) :
    dispatchEvent st (mkOutputItemAdded it) =
      .ok (handleOutputItemAdded st (mkOutputItemAdded it)) := rfl

theorem dispatch_argsDelta (st : ConnState) (i d : String) :
    dispatchEvent st (mkArgsDelta i d) =
      .ok (handleFunctionArgsDelta st (mkArgsDelta i d)) := rfl

theorem dispatch_argsDone (st : ConnState) (i a : String) :
    dispatchEvent st (mkArgsDone i a) =
      .ok (handleFunctionArgsDone st (mkArgsDone i a)) := rfl

theorem dispatch_outputItemDone (st : ConnState) (it : RawItem) :
    dispatchEvent st (mkOutputItemDone it) =
      .ok (handleOutputItemDone st (mkOutputItemDone it)) := rfl

/-! ## Lemmas: handler computations on the constructed events -/

theorem handleOutputItemAdded_mk (st : ConnState) (i n s0 : String) :
    handleOutputItemAdded st (mkOutputItemAdded (addedItem i n s0)) =
      ({ pending := alistSet st.pending i ⟨n, initialBuf s0⟩ }, []) := by
  unfold handleOutputItemAdded mkOutputItemAdded addedItem initialBuf
  simp only [Option.getD_some]
  rw [if_neg (by simp)]
  rw [getD_strOrNone_empty, firstStr_some_none, strOrNone_getD]

theorem handleFunctionArgsDelta_mk_present (st : ConnState) (i d : String)
    (h : (alistGet st.pending i).isSome) :
    handleFunctionArgsDelta st (mkArgsDelta i d) =
      ({ pending := alistUpdate (appendBuf d) st.pending i }, []) := by
  unfold handleFunctionArgsDelta mkArgsDelta
  simp only [Option.getD_some, firstStr_some_none, h, if_true]

theorem handleFunctionArgsDelta_mk_absent (st : ConnState) (i d : String)
    (h : alistGet st.pending i = none) :
    handleFunctionArgsDelta st (mkArgsDelta i d) = (st, []) := by
  unfold handleFunctionArgsDelta mkArgsDelta
  simp [firstStr_some_none, h]

theorem handleFunctionArgsDone_mk_present (st : ConnState) (i a : String)
    (h : (alistGet st.pending i).isSome) :
    handleFunctionArgsDone st (mkArgsDone i a) =
      ({ pending := alistUpdate (setBuf a) st.pending i }, []) := by
  unfold handleFunctionArgsDone mkArgsDone
  simp only [Option.getD_some, firstStr_some_none, h, if_true]

theorem handleFunctionArgsDone_mk_absent (st : ConnState) (i a : String)
    (h : alistGet st.pending i = none) :
    handleFunctionArgsDone st (mkArgsDone i a) = (st, []) := by
  unfold handleFunctionArgsDone mkArgsDone
  simp [firstStr_some_none, h]

theorem handleOutputItemDone_mk_present (st : ConnState) (i : String)
    (cid : Option String) (hi : i ≠ "") (pc : PendingCall)
    (h : alistGet st.pending i = some pc) :
    handleOutputItemDone st (mkOutputItemDone (doneItem i cid)) =
      ({ pending := alistErase st.pending i },
       [funcCallResp
          { name := pc.name,
            args := (jsonLoads pc.args_buffer).getD (Json.obj []),
            id := pyOrOpt cid (some i) }]) := by
  unfold handleOutputItemDone mkOutputItemDone doneItem
  simp only [Option.getD_some]
  rw [if_neg (by simp)]
  simp only [firstStr_some_ne i cid hi, h, jsonLoads_braceDefault]

theorem handleOutputItemDone_mk_absent (st : ConnState) (it : RawItem)
    (h : alistGet st.pending (firstStr it.id it.call_id "") = none) :
    handleOutputItemDone st (mkOutputItemDone it) = (st, []) := by
  unfold handleOutputItemDone mkOutputItemDone
  by_cases hty : it.type = some "function_call"
  · simp [hty, h]
  · simp [hty]

/-! ## Lemmas: running event sequences -/

theorem runEvents_cons_ok (st st' : ConnState) (rs : List LlmResp)
    (e : RawEvent) (es : List RawEvent)
    (h : dispatchEvent st e = .ok (st', rs)) :
    runEvents st (e :: es) =
      ((runEvents st' es).1, rs ++ (runEvents st' es).2) := by
  simp [runEvents, h]

theorem appendBuf_appendBuf (d e : String) (pc : PendingCall) :
    appendBuf e (appendBuf d pc) = appendBuf (d ++ e) pc := by
  cases pc; simp [appendBuf, String.append_assoc]

theorem appendBuf_empty (pc : PendingCall) : appendBuf "" pc = pc := by
  cases pc; simp [appendBuf, String.append_empty]

/-- A run of argument-delta frames for a pending item id appends their
concatenation to that item's buffer, emits nothing, and touches nothing
else. -/
theorem runEvents_argDeltas (i : String) (deltas : List String)
    (m : List (String × PendingCall)) (es : List RawEvent)
    (h : (alistGet m i).isSome) :
    runEvents { pending := m } (deltas.map (mkArgsDelta i) ++ es) =
      runEvents
        { pending := alistUpdate (appendBuf (strConcat deltas)) m i } es := by
  induction deltas generalizing m with
  | nil =>
    simp only [List.map_nil, List.nil_append, strConcat]
    rw [alistUpdate_congr appendBuf_empty, alistUpdate_id]
  | cons d ds ih =>
    have hstep : dispatchEvent { pending := m } (mkArgsDelta i d) =
        .ok ({ pending := alistUpdate (appendBuf d) m i }, []) := by
      rw [dispatch_argsDelta,
          handleFunctionArgsDelta_mk_present { pending := m } i d h]
    simp only [List.map_cons, List.cons_append]
    rw [runEvents_cons_ok _ _ _ _ _ hstep]
    have h2 : (alistGet (alistUpdate (appendBuf d) m i) i).isSome := by
      rw [alistGet_alistUpdate_self]
      cases ho : alistGet m i
      · rw [ho] at h; simp at h
      · simp
    rw [ih _ h2]
    have hcomp : alistUpdate (appendBuf (strConcat ds))
        (alistUpdate (appendBuf d) m i) i =
        alistUpdate (appendBuf (strConcat (d :: ds))) m i := by
      rw [alistUpdate_alistUpdate,
          alistUpdate_congr (appendBuf_appendBuf d (strConcat ds))]
      rfl
    simp [hcomp]

/-! ## Lemmas: the dict invariant is preserved by every inbound step -/

theorem pendingWF_mk (m : List (String × PendingCall))
    (h : (m.map Prod.fst).Nodup) : pendingWF { pending := m } := h

theorem wf_handleOutputItemAdded (st : ConnState) (e : RawEvent)
    (h : pendingWF st) : pendingWF (handleOutputItemAdded st e).1 := by
  unfold handleOutputItemAdded
  dsimp only
  split
  · exact h
  · exact pendingWF_mk _ (nodup_keys_alistSet _ _ _ h)

theorem wf_handleFunctionArgsDelta (st : ConnState) (e : RawEvent)
    (h : pendingWF st) : pendingWF (handleFunctionArgsDelta st e).1 := by
  unfold handleFunctionArgsDelta
  dsimp only
  split
  · exact pendingWF_mk _ (by rw [keys_alistUpdate]; exact h)
  · exact h

theorem wf_handleFunctionArgsDone (st : ConnState) (e : RawEvent)
    (h : pendingWF st) : pendingWF (handleFunctionArgsDone st e).1 := by
  unfold handleFunctionArgsDone
  dsimp only
  split
  · exact pendingWF_mk _ (by rw [keys_alistUpdate]; exact h)
  · exact h

theorem wf_handleOutputItemDone (st : ConnState) (e : RawEvent)
    (h : pendingWF st) : pendingWF (handleOutputItemDone st e).1 := by
  unfold handleOutputItemDone
  dsimp only
  split
  · exact h
  · split
    · exact h
    · exact pendingWF_mk _ (h.sublist (keys_alistErase_sublist st.pending _))

set_option maxHeartbeats 1000000 in
/-- A successful dispatch preserves the at-most-one-entry-per-id
invariant, whichever handler ran. -/
theorem wf_dispatchEvent_ok (st st' : ConnState) (rs : List LlmResp)
    (e : RawEvent) (h : pendingWF st)
    (heq : dispatchEvent st e = .ok (st', rs)) : pendingWF st' := by
  unfold dispatchEvent at heq
  by_cases hc1 : e.type = "conversation.item.truncated"
  · rw [if_pos hc1] at heq
    simp only [Except.ok.injEq, Prod.mk.injEq] at heq
    exact heq.1 ▸ h
  rw [if_neg hc1] at heq
  by_cases hc2 : e.type = "response.done"
  · rw [if_pos hc2] at heq
    simp only [Except.ok.injEq, Prod.mk.injEq] at heq
    exact heq.1 ▸ h
  rw [if_neg hc2] at heq
  by_cases hc3 : e.type = "error"
  · rw [if_pos hc3] at heq
    simp only [Except.ok.injEq, Prod.mk.injEq] at heq
    exact heq.1 ▸ h
  rw [if_neg hc3] at heq
  by_cases hc4 : e.type = "input_audio_buffer.speech_started"
  · rw [if_pos hc4] at heq
    simp only [Except.ok.injEq, Prod.mk.injEq] at heq
    exact heq.1 ▸ h
  rw [if_neg hc4] at heq
  by_cases hc5 : e.type = "input_audio_buffer.speech_stopped"
  · rw [if_pos hc5] at heq
    simp only [Except.ok.injEq, Prod.mk.injEq] at heq
    exact heq.1 ▸ h
  rw [if_neg hc5] at heq
  by_cases hc6 : e.type = "input_audio_buffer.timeout_triggered"
  · rw [if_pos hc6] at heq
    simp only [Except.ok.injEq, Prod.mk.injEq] at heq
    exact heq.1 ▸ h
  rw [if_neg hc6] at heq
  by_cases hc7 : e.type = "conversation.item.input_audio_transcription.delta"
  · rw [if_pos hc7] at heq
    simp only [Except.ok.injEq, Prod.mk.injEq] at heq
    exact heq.1 ▸ h
  rw [if_neg hc7] at heq
  by_cases hc8 : e.type = "conversation.item.input_audio_transcription.completed"
  · rw [if_pos hc8] at heq
    simp only [Except.ok.injEq, Prod.mk.injEq] at heq
    exact heq.1 ▸ h
  rw [if_neg hc8] at heq
  by_cases hc9 : e.type = "response.output_item.added"
  · rw [if_pos hc9] at heq
    simp only [Except.ok.injEq] at heq
    have h2 : st' = (handleOutputItemAdded st e).1 := (congrArg Prod.fst heq).symm
    rw [h2]; exact wf_handleOutputItemAdded st e h
  rw [if_neg hc9] at heq
  by_cases hc10 : e.type = "response.function_call_arguments.delta"
  · rw [if_pos hc10] at heq
    simp only [Except.ok.injEq] at heq
    have h2 : st' = (handleFunctionArgsDelta st e).1 := (congrArg Prod.fst heq).symm
    rw [h2]; exact wf_handleFunctionArgsDelta st e h
  rw [if_neg hc10] at heq
  by_cases hc11 : e.type = "response.function_call_arguments.done"
  · rw [if_pos hc11] at heq
    simp only [Except.ok.injEq] at heq
    have h2 : st' = (handleFunctionArgsDone st e).1 := (congrArg Prod.fst heq).symm
    rw [h2]; exact wf_handleFunctionArgsDone st e h
  rw [if_neg hc11] at heq
  by_cases hc12 : e.type = "response.output_item.done"
  · rw [if_pos hc12] at heq
    simp only [Except.ok.injEq] at heq
    have h2 : st' = (handleOutputItemDone st e).1 := (congrArg Prod.fst heq).symm
    rw [h2]; exact wf_handleOutputItemDone st e h
  rw [if_neg hc12] at heq
  by_cases hc13 : e.type = "response.output_text.delta"
  · rw [if_pos hc13] at heq
    simp only [Except.ok.injEq, Prod.mk.injEq] at heq
    exact heq.1 ▸ h
  rw [if_neg hc13] at heq
  by_cases hc14 : e.type = "response.output_text.done"
  · rw [if_pos hc14] at heq
    cases hto : handleOutputTextDone e
    · rw [hto] at heq
      exact Except.noConfusion heq
    · rw [hto] at heq
      simp only [Except.ok.injEq, Prod.mk.injEq] at heq
      exact heq.1 ▸ h
  rw [if_neg hc14] at heq
  by_cases hc15 : e.type = "output_audio_buffer.started"
  · rw [if_pos hc15] at heq
    simp only [Except.ok.injEq, Prod.mk.injEq] at heq
    exact heq.1 ▸ h
  rw [if_neg hc15] at heq
  by_cases hc16 : e.type = "response.audio.delta"
  · rw [if_pos hc16] at heq
    simp only [Except.ok.injEq, Prod.mk.injEq] at heq
    exact heq.1 ▸ h
  rw [if_neg hc16] at heq
  by_cases hc17 : e.type = "response.output_audio.done"
  · rw [if_pos hc17] at heq
    exact Except.noConfusion heq
  rw [if_neg hc17] at heq
  by_cases hc18 : e.type = "output_audio_buffer.stopped"
  · rw [if_pos hc18] at heq
    simp only [Except.ok.injEq, Prod.mk.injEq] at heq
    exact heq.1 ▸ h
  rw [if_neg hc18] at heq
  by_cases hc19 : e.type = "response.audio_transcript.delta"
  · rw [if_pos hc19] at heq
    simp only [Except.ok.injEq, Prod.mk.injEq] at heq
    exact heq.1 ▸ h
  rw [if_neg hc19] at heq
  by_cases hc20 : e.type = "response.audio_transcript.done"
  · rw [if_pos hc20] at heq
    simp only [Except.ok.injEq, Prod.mk.injEq] at heq
    exact heq.1 ▸ h
  rw [if_neg hc20] at heq
  simp only [Except.ok.injEq, Prod.mk.injEq] at heq
  exact heq.1 ▸ h

/-- One frame never breaks the at-most-one-entry-per-id invariant. -/
theorem wf_stepState (st : ConnState) (e : RawEvent) (h : pendingWF st) :
    pendingWF (stepState st e) := by
  unfold stepState
  split
  · next st' rs heq => exact wf_dispatchEvent_ok st st' rs e h heq
  · exact h

/-- Every reachable connection state satisfies the invariant. -/
theorem wf_runConn (es : List RawEvent) : pendingWF (runConn es) := by
  have hgen : ∀ st, pendingWF st → pendingWF (es.foldl stepState st) := by
    induction es with
    | nil => intro st h; exact h
    | cons e rest ih => intro st h; exact ih _ (wf_stepState st e h)
  exact hgen initState (by simp [pendingWF, initState])

/-- C1 (amended): from any well-formed state, the sequence added(i, n, s0) →
deltas → optional args-done(full) → item-done(i, cid) with a non-empty item
id yields exactly one function-call response named `n`, whose arguments are
the JSON parse of the final buffer (`full` if the done frame arrived, else
the initial buffer — `s0`, or `"{}"` when `s0` is empty — followed by the
concatenated deltas), defaulting to the empty object on parse failure, and
whose id is the done item's call id (its item id when the call id is absent
or empty); afterwards the pending map no longer contains `i`. -/
theorem C1_function_call_reconstruction (st : ConnState) (i n s0 : String)
    (deltas : List String) (full cid : Option String)
    (hi : i ≠ "") (hnd : pendingWF st) :
    (runEvents st (funcCallEvents i n s0 deltas full cid)).2 =
      [funcCallResp
        { name := n,
          args := (jsonLoads (full.getD
              (initialBuf s0 ++ strConcat deltas))).getD (Json.obj []),
          id := pyOrOpt cid (some i) }] ∧
    alistGet
        (runEvents st (funcCallEvents i n s0 deltas full cid)).1.pending
        i = none := by
  have hadded : dispatchEvent st (mkOutputItemAdded (addedItem i n s0)) =
      .ok ({ pending := alistSet st.pending i ⟨n, initialBuf s0⟩ }, []) := by
    rw [dispatch_outputItemAdded, handleOutputItemAdded_mk]
  have h1 : (alistGet (alistSet st.pending i ⟨n, initialBuf s0⟩) i).isSome := by
    rw [alistGet_alistSet_self]; rfl
  have hm2get : alistGet (alistUpdate (appendBuf (strConcat deltas))
      (alistSet st.pending i ⟨n, initialBuf s0⟩) i) i =
      some ⟨n, initialBuf s0 ++ strConcat deltas⟩ := by
    rw [alistGet_alistUpdate_self, alistGet_alistSet_self]; rfl
  have hm2nodup : ((alistUpdate (appendBuf (strConcat deltas))
      (alistSet st.pending i ⟨n, initialBuf s0⟩) i).map Prod.fst).Nodup := by
    rw [keys_alistUpdate]; exact nodup_keys_alistSet _ _ _ hnd
  unfold funcCallEvents
  rw [runEvents_cons_ok _ _ _ _ _ hadded]
  rw [runEvents_argDeltas i deltas _ _ h1]
  cases full with
  | none =>
    have hdone : dispatchEvent
        { pending := alistUpdate (appendBuf (strConcat deltas))
            (alistSet st.pending i ⟨n, initialBuf s0⟩) i }
        (mkOutputItemDone (doneItem i cid)) =
        .ok ({ pending :=
                 alistErase (alistUpdate (appendBuf (strConcat deltas))
                   (alistSet st.pending i ⟨n, initialBuf s0⟩) i) i },
          [funcCallResp
            { name := n,
              args := (jsonLoads (initialBuf s0 ++
                  strConcat deltas)).getD (Json.obj []),
              id := pyOrOpt cid (some i) }]) := by
      rw [dispatch_outputItemDone,
          handleOutputItemDone_mk_present _ i cid hi _ hm2get]
    simp only [Option.map_none', Option.toList_none, List.nil_append]
    rw [runEvents_cons_ok _ _ _ _ _ hdone]
    refine ⟨by simp [runEvents], ?_⟩
    simp only [runEvents]
    exact alistGet_alistErase_self _ _ hm2nodup
  | some a =>
    have hargsDone : dispatchEvent
        { pending := alistUpdate (appendBuf (strConcat deltas))
            (alistSet st.pending i ⟨n, initialBuf s0⟩) i }
        (mkArgsDone i a) =
        .ok ({ pending :=
                 alistUpdate (setBuf a)
                   (alistUpdate (appendBuf (strConcat deltas))
                     (alistSet st.pending i ⟨n, initialBuf s0⟩) i) i },
          []) := by
      rw [dispatch_argsDone,
          handleFunctionArgsDone_mk_present _ _ _ (by rw [hm2get]; rfl)]
    have hm3get : alistGet (alistUpdate (setBuf a)
        (alistUpdate (appendBuf (strConcat deltas))
          (alistSet st.pending i ⟨n, initialBuf s0⟩) i) i) i =
        some ⟨n, a⟩ := by
      rw [alistGet_alistUpdate_self, hm2get]; rfl
    have hm3nodup : ((alistUpdate (setBuf a)
        (alistUpdate (appendBuf (strConcat deltas))
          (alistSet st.pending i ⟨n, initialBuf s0⟩) i) i).map
        Prod.fst).Nodup := by
      rw [keys_alistUpdate]; exact hm2nodup
    have hdone : dispatchEvent
        { pending := alistUpdate (setBuf a)
            (alistUpdate (appendBuf (strConcat deltas))
              (alistSet st.pending i ⟨n, initialBuf s0⟩) i) i }
        (mkOutputItemDone (doneItem i cid)) =
        .ok ({ pending :=
                 alistErase (alistUpdate (setBuf a)
                   (alistUpdate (appendBuf (strConcat deltas))
                     (alistSet st.pending i ⟨n, initialBuf s0⟩) i) i) i },
          [funcCallResp
            { name := n, args := (jsonLoads a).getD (Json.obj []),
              id := pyOrOpt cid (some i) }]) := by
      rw [dispatch_outputItemDone,
          handleOutputItemDone_mk_present _ i cid hi _ hm3get]
    simp only [Option.map_some', Option.toList_some, List.cons_append,
      List.nil_append, List.singleton_append]
    rw [runEvents_cons_ok _ _ _ _ _ hargsDone]
    rw [runEvents_cons_ok _ _ _ _ _ hdone]
    refine ⟨by simp [runEvents], ?_⟩
    simp only [runEvents]
    exact alistGet_alistErase_self _ _ hm3nodup

/-- C1 witness: the spec's own example — added(id "item1", name "lookup",
args `{"q":`), delta `"x"}`, done(call id "call1") — yields exactly one
function-call response named "lookup" with arguments `{"q": "x"}` and id
"call1", and the pending map no longer contains "item1". -/
theorem C1_function_call_reconstruction_witness :
    (runEvents initState (funcCallEvents "item1" "lookup" "\x7b\"q\":"
        ["\"x\"\x7d"] none (some "call1"))).2 =
      [funcCallResp
        { name := "lookup", args := Json.obj [("q", Json.str "x")], id := some "call1" }] ∧
    alistGet (runEvents initState (funcCallEvents "item1" "lookup"
        "\x7b\"q\":" ["\"x\"\x7d"] none (some "call1"))).1.pending
      "item1" = none := by
  have h := C1_function_call_reconstruction initState "item1" "lookup"
    "\x7b\"q\":" ["\"x\"\x7d"] none (some "call1") (by decide) (by decide)
  refine ⟨?_, h.2⟩
  rw [h.1]
  rfl

/-- C1 counterexample to the claim as stated: with the empty initial
arguments string and the single delta `[1]`, the code emits empty-object
arguments (its buffer was initialized to `"{}"`, so it holds the unparsable
`{}[1]`), while the claim's buffer — s0 followed by the deltas — is `[1]`,
whose JSON parse is the array `[1]`, not the empty object. -/
theorem C1_claim_counterexample :
    (runEvents initState
        (funcCallEvents "item1" "lookup" "" ["[1]"] none (some "call1"))).2 =
      [funcCallResp
        { name := "lookup", args := Json.obj [], id := some "call1" }] ∧
    (jsonLoads ("" ++ strConcat ["[1]"])).getD (Json.obj []) =
      Json.arr [Json.num 1] ∧
    Json.obj [] ≠ Json.arr [Json.num 1] := by
  refine ⟨rfl, rfl, ?_⟩
  intro hcontra
  exact Json.noConfusion hcontra

/-- C2 (confirmed): a non-empty `response.output_text.delta` yields exactly
one partial model-role text response carrying the delta, and a non-empty
`response.output_text.done` yields exactly one final (non-partial)
model-role text response carrying the server-supplied text — from any
state, unchanged, regardless of preceding deltas. -/
theorem C2_text_delta_and_done (st : ConnState) (d t : String)
    (hd : d ≠ "") (ht : t ≠ "") :
    dispatchEvent st (mkTextDelta d) = .ok (st, [textResp "model" d true]) ∧
    dispatchEvent st (mkTextDone t) = .ok (st, [textResp "model" t false]) := by
  constructor
  · have hb : dispatchEvent st (mkTextDelta d) =
        .ok (st, handleOutputTextDelta (mkTextDelta d)) := rfl
    rw [hb]
    unfold handleOutputTextDelta mkTextDelta
    simp [hd]
  · have hh : handleOutputTextDone (mkTextDone t) =
        some [textResp "model" t false] := by
      unfold handleOutputTextDone mkTextDone
      simp [ht]
    have hb : dispatchEvent st (mkTextDone t) =
        match handleOutputTextDone (mkTextDone t) with
        | some rs => .ok (st, rs)
        | none => .error (.typeErr "NoneType object is not iterable") := rfl
    rw [hb, hh]

/-- C2 witness: delta "He" and done "Hello" from the initial state. -/
theorem C2_text_delta_and_done_witness :
    dispatchEvent initState (mkTextDelta "He") =
      .ok (initState, [textResp "model" "He" true]) ∧
    dispatchEvent initState (mkTextDone "Hello") =
      .ok (initState, [textResp "model" "Hello" false]) :=
  C2_text_delta_and_done initState "He" "Hello" (by decide) (by decide)

/-- C3 (code bug): dispatching a well-formed `response.output_audio.done`
frame raises — the handler registered for that type calls
`self._handle_output_audio_done`, a method that does not exist on the
class, so an `AttributeError` escapes `receive()` to its consumer, which
contradicts the claim that only transport failures surface. -/
theorem C3_output_audio_done_raises :
    dispatchEvent initState { type := "response.output_audio.done" } =
      .error (PyError.attributeErr "_handle_output_audio_done") := rfl

/-- C4 (confirmed): an argument-delta or argument-done frame whose item id
has no pending entry yields no responses, raises nothing and leaves the
state untouched; and every connection state reachable from construction
keeps at most one pending entry per item id. -/
theorem C4_pending_map_no_op_and_invariant (st : ConnState) (i d a : String)
    (es : List RawEvent) (h : alistGet st.pending i = none) :
    dispatchEvent st (mkArgsDelta i d) = .ok (st, []) ∧
    dispatchEvent st (mkArgsDone i a) = .ok (st, []) ∧
    pendingWF (runConn es) := by
  refine ⟨?_, ?_, wf_runConn es⟩
  · rw [dispatch_argsDelta, handleFunctionArgsDelta_mk_absent st i d h]
  · rw [dispatch_argsDone, handleFunctionArgsDone_mk_absent st i a h]

/-- C4 witness: a state holding one pending call for "item1" ignores
argument frames for the unknown id "other", and a concrete frame run
(including a duplicate added frame for the same id) ends well-formed. -/
theorem C4_pending_map_witness :
    dispatchEvent { pending := [("item1", ⟨"lookup", "\x7b"⟩)] }
        (mkArgsDelta "other" "xy") =
      .ok ({ pending := [("item1", ⟨"lookup", "\x7b"⟩)] }, []) ∧
    dispatchEvent { pending := [("item1", ⟨"lookup", "\x7b"⟩)] }
        (mkArgsDone "other" "\x7b\x7d") =
      .ok ({ pending := [("item1", ⟨"lookup", "\x7b"⟩)] }, []) ∧
    pendingWF (runConn [mkOutputItemAdded (addedItem "a" "f" ""),
      mkOutputItemAdded (addedItem "a" "g" ""),
      mkOutputItemAdded (addedItem "b" "h" ""),
      mkArgsDelta "a" "\x7b\x7d"]) := by
  have h := C4_pending_map_no_op_and_invariant
    { pending := [("item1", ⟨"lookup", "\x7b"⟩)] } "other" "xy" "\x7b\x7d"
    [mkOutputItemAdded (addedItem "a" "f" ""),
     mkOutputItemAdded (addedItem "a" "g" ""),
     mkOutputItemAdded (addedItem "b" "h" ""),
     mkArgsDelta "a" "\x7b\x7d"] (by decide)
  exact h

/-- C10 (confirmed): a `response.output_item.done` frame whose item has
type `function_call` but an item id with no matching pending entry yields
no normalized response, raises nothing, and leaves the map unchanged. -/
theorem C10_done_without_pending_entry (st : ConnState) (it : RawItem)
    (hty : it.type = some "function_call")
    (h : alistGet st.pending (firstStr it.id it.call_id "") = none) :
    dispatchEvent st (mkOutputItemDone it) = .ok (st, []) := by
  rw [dispatch_outputItemDone, handleOutputItemDone_mk_absent st it h]

/-- C10 witness: a completed call for the unknown id "ghost" against a
state holding a different pending call. -/
theorem C10_done_without_pending_entry_witness :
    dispatchEvent { pending := [("item1", ⟨"lookup", "\x7b"⟩)] }
        (mkOutputItemDone (doneItem "ghost" none)) =
      .ok ({ pending := [("item1", ⟨"lookup", "\x7b"⟩)] }, []) :=
  C10_done_without_pending_entry
    { pending := [("item1", ⟨"lookup", "\x7b"⟩)] } (doneItem "ghost" none)
    rfl (by decide)

/-! ## Claims C5, C6, C9: the send operations -/

theorem modelPartFrame_ne_responseCreate (p : Part) :
    modelPartFrame p ≠ some Frame.responseCreate := by
  unfold modelPartFrame
  intro hp
  split at hp
  · exact Option.noConfusion hp
  · split at hp
    · split at hp
      · exact Option.noConfusion hp
      · simp at hp
    · exact Option.noConfusion hp

theorem responseCreate_not_mem_sendHistoryItem (c : Content) :
    Frame.responseCreate ∉ sendHistoryItem c := by
  unfold sendHistoryItem
  split
  · simp
  · next x p0 ps heq =>
    by_cases h1 : p0.function_response.isSome = true
    · rw [if_pos h1]
      dsimp only
      split <;> simp
    · rw [if_neg h1]
      by_cases h3 : c.role = "model"
      · rw [if_pos h3]
        simp [List.mem_filterMap, modelPartFrame_ne_responseCreate]
      · rw [if_neg h3]
        by_cases h4 : c.role = "user"
        · rw [if_pos h4]
          dsimp only
          split <;> simp
        · rw [if_neg h4]
          simp

theorem responseCreate_not_mem_send_history (history : List Content) :
    Frame.responseCreate ∉ send_history history := by
  induction history with
  | nil => simp [send_history]
  | cons c rest ih =>
    simp only [send_history, List.mem_append]
    rintro (hmem | hmem)
    · exact responseCreate_not_mem_sendHistoryItem c hmem
    · exact ih hmem

/-- C5 counterexample to the claim as stated: a model-role item whose first
part is a function response and whose second part is the text "hi" is
replayed as a single user message holding the serialized response payload;
the text part is not replayed as an assistant message, contradicting the
claim's "each text part of the same item is still replayed as an assistant
message" for every model-role item. -/
theorem C5_claim_counterexample :
    send_history
        [{ role := "model",
           parts := some
             [{ function_response := some { id := some "c1", response := Json.obj [] } },
              { text := some "hi" }] }] =
      [Frame.conversationItemCreateMessage "user"
        [.input_text (jsonDumps (Json.obj []))]] ∧
    Frame.conversationItemCreateMessage "assistant" [.text "hi"] ∉
      send_history
        [{ role := "model",
           parts := some
             [{ function_response := some { id := some "c1", response := Json.obj [] } },
              { text := some "hi" }] }] := by
  refine ⟨rfl, ?_⟩
  decide

/-- C5 (amended): send_history never sends `response.create`; a model-role
item whose first part is not a function response sends, per part, no frame
for a function call and one assistant text message per non-empty text; a
user-role item whose first part is not a function response sends one user
message combining its non-empty text parts (no frame when there are none);
an item with no parts sends nothing. -/
theorem C5_history_replay (history : List Content) (c : Content) (p0 : Part)
    (ps : List Part) (hps : c.parts.getD [] = p0 :: ps)
    (hfr : p0.function_response = none) :
    Frame.responseCreate ∉ send_history history ∧
    (c.role = "model" → sendHistoryItem c = (p0 :: ps).filterMap modelPartFrame) ∧
    (∀ p : Part, p.function_call.isSome → modelPartFrame p = none) ∧
    (∀ (p : Part) (t : String), p.function_call = none → p.text = some t →
      t ≠ "" →
      modelPartFrame p =
        some (.conversationItemCreateMessage "assistant" [.text t])) ∧
    (c.role = "user" → sendHistoryItem c =
      (if inputTextEntries (p0 :: ps) = [] then []
       else [Frame.conversationItemCreateMessage "user"
              (inputTextEntries (p0 :: ps))])) ∧
    (∀ c2 : Content, c2.parts.getD [] = [] → sendHistoryItem c2 = []) := by
  refine ⟨responseCreate_not_mem_send_history history, ?_, ?_, ?_, ?_, ?_⟩
  · intro hrole
    unfold sendHistoryItem
    rw [hps]
    simp [hfr, hrole]
  · intro p hp
    unfold modelPartFrame
    simp [hp]
  · intro p t hfc ht hne
    unfold modelPartFrame
    simp [hfc, ht, hne]
  · intro hrole
    unfold sendHistoryItem
    rw [hps]
    simp only [hfr, Option.isSome_none, Bool.false_eq_true, if_false, hrole]
    simp
  · intro c2 h2
    unfold sendHistoryItem
    rw [h2]

/-- C5 witness: a model item with a function call and a text part sends
one assistant message; a user item with two text parts sends one user
message with two entries; an empty history sends nothing. -/
theorem C5_history_replay_witness :
    Frame.responseCreate ∉ send_history
      [{ role := "model",
         parts := some [{ function_call := some { name := "f" } },
                        { text := some "hi" }] },
       { role := "user",
         parts := some [{ text := some "a" }, { text := some "b" }] }] ∧
    sendHistoryItem
        { role := "model",
          parts := some [{ function_call := some { name := "f" } },
                         { text := some "hi" }] } =
      [.conversationItemCreateMessage "assistant" [.text "hi"]] ∧
    sendHistoryItem
        { role := "user",
          parts := some [{ text := some "a" }, { text := some "b" }] } =
      [.conversationItemCreateMessage "user" [.input_text "a", .input_text "b"]] ∧
    sendHistoryItem { role := "user", parts := some [] } = [] := by
  have h1 := C5_history_replay
    [{ role := "model",
       parts := some [{ function_call := some { name := "f" } },
                      { text := some "hi" }] },
     { role := "user",
       parts := some [{ text := some "a" }, { text := some "b" }] }]
    { role := "model",
      parts := some [{ function_call := some { name := "f" } },
                     { text := some "hi" }] }
    { function_call := some { name := "f" } } [{ text := some "hi" }]
    rfl rfl
  have h2 := C5_history_replay
    [{ role := "user",
       parts := some [{ text := some "a" }, { text := some "b" }] }]
    { role := "user",
      parts := some [{ text := some "a" }, { text := some "b" }] }
    { text := some "a" } [{ text := some "b" }] rfl rfl
  refine ⟨h1.1, ?_, ?_, h2.2.2.2.2.2 _ rfl⟩
  · rw [h1.2.1 rfl]
    rfl
  · rw [h2.2.2.2.2.1 rfl]
    rfl

/-- C6 (confirmed): with a non-empty part list, a function-response-first
content sends one `function_call_output` frame per function-response part
(carrying that part's call id and JSON-serialized response) followed by
exactly one `response.create`; otherwise the non-empty text parts are
combined into a single user message followed by `response.create`, and
nothing at all is sent when there is no text. -/
theorem C6_send_content_frames (c : Content) (p0 : Part) (ps : List Part)
    (hps : c.parts.getD [] = p0 :: ps) :
    (p0.function_response.isSome →
      send_content c = .ok (((p0 :: ps).filterMap fun p =>
          p.function_response.map fun fr =>
            Frame.conversationItemCreateFunctionCallOutput fr.id
              (jsonDumps fr.response)) ++ [.responseCreate])) ∧
    (p0.function_response = none →
      send_content c =
        .ok (if inputTextEntries (p0 :: ps) = [] then []
          else [Frame.conversationItemCreateMessage "user"
                  (inputTextEntries (p0 :: ps)), .responseCreate])) := by
  constructor
  · intro hfr
    unfold send_content
    rw [hps]
    simp [hfr]
  · intro hfr
    unfold send_content
    rw [hps]
    by_cases hts : inputTextEntries (p0 :: ps) = [] <;> simp [hfr, hts]

/-- C6 witness: two function responses produce two correlated
`function_call_output` frames then `response.create`; one text part
produces a user message then `response.create`; a lone function-call part
produces nothing. -/
theorem C6_send_content_frames_witness :
    send_content
        { role := "user",
          parts := some
            [{ function_response := some { id := some "c1", response := Json.obj [] } },
             { function_response := some { id := some "c2", response := Json.num 7 } }] } =
      .ok [Frame.conversationItemCreateFunctionCallOutput (some "c1") (jsonDumps (Json.obj [])),
           Frame.conversationItemCreateFunctionCallOutput (some "c2") "7",
           Frame.responseCreate] ∧
    send_content { role := "user", parts := some [{ text := some "hi" }] } =
      .ok [Frame.conversationItemCreateMessage "user" [.input_text "hi"],
           Frame.responseCreate] ∧
    send_content
        { role := "user",
          parts := some [{ function_call := some { name := "f" } }] } =
      .ok [] := by
  have h1 := C6_send_content_frames
    { role := "user",
      parts := some
        [{ function_response := some { id := some "c1", response := Json.obj [] } },
         { function_response := some { id := some "c2", response := Json.num 7 } }] }
    { function_response := some { id := some "c1", response := Json.obj [] } }
    [{ function_response := some { id := some "c2", response := Json.num 7 } }]
    rfl
  have h2 := C6_send_content_frames
    { role := "user", parts := some [{ text := some "hi" }] }
    { text := some "hi" } [] rfl
  have h3 := C6_send_content_frames
    { role := "user", parts := some [{ function_call := some { name := "f" } }] }
    { function_call := some { name := "f" } } [] rfl
  refine ⟨?_, ?_, ?_⟩
  · rw [h1.1 rfl]
    rfl
  · rw [h2.2 rfl]
    rfl
  · rw [h3.2 rfl]
    rfl

/-- C9 (confirmed): `send_content` on a content whose parts are absent or
empty fails with the precondition error (`assert content.parts`) before
any frame is sent. -/
theorem C9_send_content_empty_parts (c : Content)
    (h : c.parts.getD [] = []) :
    send_content c = .error SendError.assertionError := by
  unfold send_content
  rw [h]

/-- C9 witness: both the absent-parts and the empty-parts contents fail. -/
theorem C9_send_content_empty_parts_witness :
    send_content { role := "user", parts := none } =
      .error SendError.assertionError ∧
    send_content { role := "user", parts := some [] } =
      .error SendError.assertionError :=
  ⟨C9_send_content_empty_parts _ rfl, C9_send_content_empty_parts _ rfl⟩

/-! ## Claim C8: send_realtime -/

/-- C8 (confirmed): an audio blob sends exactly one
`input_audio_buffer.append` frame carrying the base64-encoded chunk; an
activity-start marker sends `input_audio_buffer.commit` then
`response.create`; an activity-end marker sends `input_audio_buffer.clear`;
any other input shape raises a descriptive `ValueError` and sends no
frame. -/
theorem C8_send_realtime_shapes (bytes : List Nat) (t : String) :
    send_realtime (.blob bytes) =
      .ok [.inputAudioBufferAppend (base64Encode bytes)] ∧
    send_realtime .activityStart =
      .ok [.inputAudioBufferCommit, .responseCreate] ∧
    send_realtime .activityEnd = .ok [.inputAudioBufferClear] ∧
    send_realtime (.other t) =
      .error (.valueError ("Unsupported realtime input type: " ++ t)) :=
  ⟨rfl, rfl, rfl, rfl⟩

/-! ## Claim C7: the session-configuration deep merge -/

theorem deep_merge_fuel_get_not_mem (fuel : Nat)
    (base extra : List (String × Json)) (k : String)
    (h : k ∉ extra.map Prod.fst) :
    alistGet (deep_merge_fuel fuel base extra) k = alistGet base k := by
  induction fuel generalizing base extra with
  | zero => rfl
  | succ f ih =>
    cases extra with
    | nil => rfl
    | cons kv rest =>
      obtain ⟨k0, v⟩ := kv
      simp only [List.map_cons, List.mem_cons] at h
      push_neg at h
      have hne : ¬ k0 = k := fun he => h.1 he.symm
      show alistGet (deep_merge_fuel f _ rest) k = alistGet base k
      rw [ih _ rest h.2]
      cases v with
      | null => rfl
      | bool b => exact alistGet_alistSet_ne _ _ _ _ h.1
      | num n => exact alistGet_alistSet_ne _ _ _ _ h.1
      | str s => exact alistGet_alistSet_ne _ _ _ _ h.1
      | arr xs => exact alistGet_alistSet_ne _ _ _ _ h.1
      | obj sub =>
        show alistGet (match alistGet base k0 with
          | some (.obj bsub) => alistSet base k0 (.obj (deep_merge_fuel f bsub sub))
          | _ => alistSet base k0 (.obj sub)) k = alistGet base k
        split
        · exact alistGet_alistSet_ne _ _ _ _ h.1
        · exact alistGet_alistSet_ne _ _ _ _ h.1

theorem deep_merge_fuel_null_preserves (fuel : Nat)
    (base extra : List (String × Json)) (k : String)
    (hnd : (extra.map Prod.fst).Nodup)
    (hk : alistGet extra k = some Json.null) :
    alistGet (deep_merge_fuel fuel base extra) k = alistGet base k := by
  induction fuel generalizing base extra with
  | zero => rfl
  | succ f ih =>
    cases extra with
    | nil => simp [alistGet] at hk
    | cons kv rest =>
      obtain ⟨k0, v⟩ := kv
      simp only [List.map_cons, List.nodup_cons] at hnd
      by_cases hkk : k0 = k
      · subst hkk
        have hv : v = Json.null := by
          simpa [alistGet] using hk
        subst hv
        show alistGet (deep_merge_fuel f base rest) k0 = alistGet base k0
        exact deep_merge_fuel_get_not_mem f base rest k0 hnd.1
      · have hk' : alistGet rest k = some Json.null := by
          simpa [alistGet, hkk] using hk
        have hne : k ≠ k0 := fun he => hkk he.symm
        show alistGet (deep_merge_fuel f _ rest) k = alistGet base k
        rw [ih _ rest hnd.2 hk']
        cases v with
        | null => rfl
        | bool b => exact alistGet_alistSet_ne _ _ _ _ hne
        | num n => exact alistGet_alistSet_ne _ _ _ _ hne
        | str s => exact alistGet_alistSet_ne _ _ _ _ hne
        | arr xs => exact alistGet_alistSet_ne _ _ _ _ hne
        | obj sub =>
          show alistGet (match alistGet base k0 with
            | some (.obj bsub) => alistSet base k0 (.obj (deep_merge_fuel f bsub sub))
            | _ => alistSet base k0 (.obj sub)) k = alistGet base k
          split
          · exact alistGet_alistSet_ne _ _ _ _ hne
          · exact alistGet_alistSet_ne _ _ _ _ hne

/-- C7 (confirmed): the deep merge never lets a `None` (null) value in the
later layer delete or overwrite a key set by the earlier layer — the merged
lookup at such a key equals the earlier layer's lookup — and it merges
recursively over nested mappings, as on the spec's example. -/
theorem C7_deep_merge_null_preserves (base extra : List (String × Json))
    (k : String) (hnd : (extra.map Prod.fst).Nodup)
    (hk : alistGet extra k = some Json.null) :
    alistGet (deep_merge base extra) k = alistGet base k ∧
    deep_merge [("a", Json.obj [("b", Json.num 1), ("c", Json.num 2)])]
        [("a", Json.obj [("b", Json.null), ("d", Json.num 3)])] =
      [("a", Json.obj [("b", Json.num 1), ("c", Json.num 2),
        ("d", Json.num 3)])] :=
  ⟨deep_merge_fuel_null_preserves _ base extra k hnd hk, rfl⟩

/-- C7 witness: merging `{x: 1}` with `{x: None}` keeps `x = 1`, and the
spec's nested example evaluates as claimed. -/
theorem C7_deep_merge_null_preserves_witness :
    alistGet (deep_merge [("x", Json.num 1)] [("x", Json.null)]) "x" =
      alistGet [("x", Json.num 1)] "x" ∧
    deep_merge [("a", Json.obj [("b", Json.num 1), ("c", Json.num 2)])]
        [("a", Json.obj [("b", Json.null), ("d", Json.num 3)])] =
      [("a", Json.obj [("b", Json.num 1), ("c", Json.num 2),
        ("d", Json.num 3)])] :=
  C7_deep_merge_null_preserves [("x", Json.num 1)] [("x", Json.null)] "x"
    (by decide) rfl

end Eittel
